import Mathlib

/-!
Verification of the motify-backend settlement pipeline core.

This file gives a shallow embedding, in Lean, of the pure logic of the
settlement pipeline found in the repository:

* `app/services/chain_writer.py` — percent conversion (`_ppm_to_bps`),
  fee parameter selection (`_fee_params`), and batched on-chain declaration
  (`declare_results`);
* `app/services/progress.py` — `ratio_to_ppm`;
* `app/services/payouts.py` — `compute_payouts`;
* `app/services/indexer.py` — `fetch_and_cache_ended_challenges`,
  `cache_participants` and `prepare_run`.

External effects (the web3 RPC node, the Supabase-backed cache store, the
progress oracle) are modelled as explicit parameters: database tables become
lists of row structures, network reads become values of `Option`/function
parameters (with `none` standing for a raised exception where the Python code
catches one), and Python exceptions that propagate to the caller become
`Except.error`.  Python integers are `ℤ`, Python floats are modelled as exact
rationals `ℚ`, and Python `round` (round-half-to-even) is `pyRound` below.
-/

namespace Motify

/-- Python `round` on a real value, returning an integer: round to nearest,
ties to even (banker's rounding). -/
def pyRound (q : ℚ) : ℤ :=
  if q - ⌊q⌋ < 1 / 2 then ⌊q⌋
  else if 1 / 2 < q - ⌊q⌋ then ⌊q⌋ + 1
  else if ⌊q⌋ % 2 = 0 then ⌊q⌋ else ⌊q⌋ + 1

theorem pyRound_intCast (n : ℤ) : pyRound (n : ℚ) = n := by
  norm_num [pyRound]

theorem pyRound_nonneg {q : ℚ} (h : 0 ≤ q) : 0 ≤ pyRound q := by
  have h0 : (0 : ℤ) ≤ ⌊q⌋ := Int.floor_nonneg.mpr h
  unfold pyRound
  split
  · exact h0
  · split
    · omega
    · split <;> omega

theorem pyRound_le {q : ℚ} {n : ℤ} (h : q ≤ (n : ℚ)) : pyRound q ≤ n := by
  have hfl : ⌊q⌋ ≤ n := by simpa using Int.floor_mono h
  have hstep : (1 / 2 : ℚ) ≤ q - ⌊q⌋ → ⌊q⌋ + 1 ≤ n := by
    intro hc
    by_contra hn
    have heq : n = ⌊q⌋ := by omega
    subst heq
    linarith
  unfold pyRound
  split
  · exact hfl
  · rename_i h1
    have h2 := hstep (le_of_not_lt h1)
    split
    · exact h2
    · split <;> omega

/-- Source `chain_writer.py::_ppm_to_bps`: `int(round(int(ppm) / 100))`.
1 bps = 100 ppm. -/
def ppm_to_bps (ppm : ℤ) : ℤ := pyRound ((ppm : ℚ) / 100)

/-- Source `progress.py::ratio_to_ppm`: clamp the ratio to `[0, 1]` and
convert to an integer number of parts per million.  A `None` ratio yields 0
(the source also maps a value of the wrong runtime type to 0; type coercion
failures are outside this model). -/
def ratio_to_ppm (ratio : Option ℚ) : ℤ :=
  match ratio with
  | none => 0
  | some x => pyRound (max 0 (min 1 x) * 1000000)

/-- Claim C8: for every `percent_ppm` in `[0, 1_000_000]` the converted
basis-points value lies in `[0, 10_000]`, and converting the ratio
`ppm / 1e6` back through `ratio_to_ppm` recovers `ppm` exactly. -/
theorem c8_bps_bounds_and_roundtrip (ppm : ℤ) (h0 : 0 ≤ ppm) (h1 : ppm ≤ 1000000) :
    0 ≤ ppm_to_bps ppm ∧ ppm_to_bps ppm ≤ 10000 ∧
      ratio_to_ppm (some ((ppm : ℚ) / 1000000)) = ppm := by
  refine ⟨?_, ?_, ?_⟩
  · apply pyRound_nonneg
    apply div_nonneg _ (by norm_num)
    exact_mod_cast h0
  · apply pyRound_le
    rw [div_le_iff₀ (by norm_num)]
    push_cast
    linarith [(show (ppm : ℚ) ≤ 1000000 by exact_mod_cast h1)]
  · show pyRound (max 0 (min 1 ((ppm : ℚ) / 1000000)) * 1000000) = ppm
    have hge : (0 : ℚ) ≤ (ppm : ℚ) / 1000000 := by
      apply div_nonneg _ (by norm_num)
      exact_mod_cast h0
    have hle : (ppm : ℚ) / 1000000 ≤ 1 := by
      rw [div_le_one (by norm_num)]
      exact_mod_cast h1
    rw [min_eq_right hle, max_eq_right hge, div_mul_cancel₀ _ (by norm_num)]
    exact pyRound_intCast ppm

theorem c8_witness :
    0 ≤ ppm_to_bps 123456 ∧ ppm_to_bps 123456 ≤ 10000 ∧
      ratio_to_ppm (some (((123456 : ℤ) : ℚ) / 1000000)) = 123456 :=
  c8_bps_bounds_and_roundtrip 123456 (by norm_num) (by norm_num)

/-! Payout split, from `app/services/payouts.py`. -/

structure PayoutBreakdown where
  refund_amount : ℤ
  fail_amount : ℤ
  commission_amount : ℤ
  charity_amount : ℤ
  reward_from_commission_amount : ℤ
  deriving DecidableEq, Repr

/-- Source `payouts.py::compute_payouts`: integer payout split in token minor
units.  Python `//` is floor division, i.e. `Int.fdiv`.  The Python defaults
`platform_fee_bps_fail=1000`, `reward_bps_of_fee=500` are passed explicitly by
callers of this model. -/
def compute_payouts (stake_amount percent_ppm platform_fee_bps_fail reward_bps_of_fee : ℤ) :
    Except String PayoutBreakdown :=
  if percent_ppm < 0 ∨ 1000000 < percent_ppm then
    Except.error "percent_ppm must be 0..1_000_000"
  else if stake_amount < 0 then
    Except.error "stake_amount must be >= 0"
  else
    let refund := (stake_amount * percent_ppm).fdiv 1000000
    let fail := stake_amount - refund
    let commission := (fail * platform_fee_bps_fail).fdiv 10000
    let charity := fail - commission
    let reward_from_fee := (commission * reward_bps_of_fee).fdiv 10000
    Except.ok ⟨refund, fail, commission, charity, reward_from_fee⟩

/-- Claim C10: with the default fee parameters, `compute_payouts` conserves
the stake (`refund + fail = stake`, `commission + charity = fail`,
`reward ≤ commission`, all components non-negative) for every valid input,
and rejects invalid inputs with an error. -/
theorem c10_payout_conservation (s p : ℤ) :
    (0 ≤ s → 0 ≤ p → p ≤ 1000000 →
      ∃ b, compute_payouts s p 1000 500 = Except.ok b ∧
        b.refund_amount + b.fail_amount = s ∧
        b.commission_amount + b.charity_amount = b.fail_amount ∧
        b.reward_from_commission_amount ≤ b.commission_amount ∧
        0 ≤ b.refund_amount ∧ 0 ≤ b.fail_amount ∧ 0 ≤ b.commission_amount ∧
        0 ≤ b.charity_amount ∧ 0 ≤ b.reward_from_commission_amount) ∧
    ((s < 0 ∨ p < 0 ∨ 1000000 < p) →
      ∃ msg, compute_payouts s p 1000 500 = Except.error msg) := by
  constructor
  · intro hs hp0 hp1
    have hc1 : ¬ (p < 0 ∨ 1000000 < p) := by omega
    have hc2 : ¬ s < 0 := by omega
    have hres : compute_payouts s p 1000 500 = Except.ok
        ⟨(s * p).fdiv 1000000, s - (s * p).fdiv 1000000,
         ((s - (s * p).fdiv 1000000) * 1000).fdiv 10000,
         s - (s * p).fdiv 1000000 - ((s - (s * p).fdiv 1000000) * 1000).fdiv 10000,
         (((s - (s * p).fdiv 1000000) * 1000).fdiv 10000 * 500).fdiv 10000⟩ := by
      unfold compute_payouts
      rw [if_neg hc1, if_neg hc2]
    refine ⟨_, hres, ?_⟩
    have hx0 : 0 ≤ s * p := mul_nonneg hs hp0
    have hx1 : s * p ≤ s * 1000000 := mul_le_mul_of_nonneg_left hp1 hs
    dsimp only
    simp only [Int.fdiv_eq_ediv _ (by norm_num : (0:ℤ) ≤ 1000000),
      Int.fdiv_eq_ediv _ (by norm_num : (0:ℤ) ≤ 10000)]
    generalize hxy : s * p = x at hx0 hx1 ⊢
    have hdiv : x / 1000000 ≤ s := by
      have h := Int.ediv_le_ediv (by norm_num : (0:ℤ) < 1000000) hx1
      rwa [Int.mul_ediv_cancel s (by norm_num : (1000000:ℤ) ≠ 0)] at h
    refine ⟨?_, ?_, ?_, ?_, ?_, ?_, ?_, ?_⟩ <;> omega
  · intro h
    by_cases hc : p < 0 ∨ 1000000 < p
    · refine ⟨"percent_ppm must be 0..1_000_000", ?_⟩
      unfold compute_payouts
      rw [if_pos hc]
    · have hs : s < 0 := by
        rcases h with h | h | h
        · exact h
        · exact absurd (Or.inl h) hc
        · exact absurd (Or.inr h) hc
      refine ⟨"stake_amount must be >= 0", ?_⟩
      unfold compute_payouts
      rw [if_neg hc, if_pos hs]

theorem c10_witness :
    ∃ b, compute_payouts 100 250000 1000 500 = Except.ok b ∧
      b.refund_amount + b.fail_amount = 100 ∧
      b.commission_amount + b.charity_amount = b.fail_amount ∧
      b.reward_from_commission_amount ≤ b.commission_amount ∧
      0 ≤ b.refund_amount ∧ 0 ≤ b.fail_amount ∧ 0 ≤ b.commission_amount ∧
      0 ≤ b.charity_amount ∧ 0 ≤ b.reward_from_commission_amount :=
  (c10_payout_conservation 100 250000).1 (by norm_num) (by norm_num) (by norm_num)

/-! Fee parameter selection, from `chain_writer.py::_fee_params`. -/

/-- Operator configuration relevant to the chain writer
(`app/core/config.py::Settings`).  `web3_configured` stands for
`WEB3_RPC_URL and MOTIFY_CONTRACT_ADDRESS and MOTIFY_CONTRACT_ABI_PATH`
all being set. -/
structure WriterSettings where
  web3_configured : Bool
  MAX_FEE_GWEI : Option ℚ
  GAS_LIMIT : Option ℤ
  PRIVATE_KEY : Option String

/-- Observable fee state of the RPC node, as `_fee_params` reads it.
`none` models the attribute being absent, returning `None`, or raising
(each of which the source treats identically, via `try`/`except` and
`getattr` defaults):

* `max_priority_fee` — `w3.eth.max_priority_fee`, in wei;
* `fee_history_reward` — first 50th-percentile reward of the last block of
  `w3.eth.fee_history(5, "latest", [50])`, in wei;
* `base_fee` — `baseFeePerGas` of the latest block (also `none` when
  `get_block` itself raises), in wei;
* `gas_price` — `w3.eth.gas_price`, in wei. -/
structure FeeNode where
  max_priority_fee : Option ℤ
  fee_history_reward : Option ℤ
  base_fee : Option ℤ
  gas_price : Option ℤ

/-- Shape of the fee-parameter dictionary `_fee_params` returns: both
EIP-1559 keys, the single legacy `gasPrice` key, or the empty dictionary. -/
inductive FeeParams where
  | eip1559 (maxFeePerGas maxPriorityFeePerGas : ℚ)
  | legacy (gasPrice : ℤ)
  | emptyDict
  deriving DecidableEq

/-- `w3.to_wei(x, "gwei")` on an exact value. -/
def gwei_to_wei (g : ℚ) : ℚ := g * 1000000000

/-- Priority tip derived in the `MAX_FEE_GWEI` branch of `_fee_params`, in
gwei: node suggestion, else fee-history reward, else a 0.1 gwei fallback.
The source converts the wei readings to gwei floats and back with
`w3.to_wei`; on exact rationals the round trip is the identity. -/
def tier1_priority_gwei (n : FeeNode) : ℚ :=
  match n.max_priority_fee with
  | some p => (p : ℚ) / 1000000000
  | none =>
    match n.fee_history_reward with
    | some r => (r : ℚ) / 1000000000
    | none => 1 / 10

/-- Priority fee used by the automatic EIP-1559 branch of `_fee_params`,
in wei: node suggestion, else `w3.to_wei(1, "gwei")`. -/
def tier2_priority_fee (n : FeeNode) : ℤ :=
  match n.max_priority_fee with
  | some p => p
  | none => 1000000000

/-- Source `chain_writer.py::_fee_params`: three-tier fee selection.
Tier 1: operator cap `MAX_FEE_GWEI` with a derived priority tip.
Tier 2: EIP-1559 from the latest base fee, capped at `2 * base + priority`.
Tier 3: legacy node gas price; if even that raises, the empty dictionary. -/
def fee_params (s : WriterSettings) (n : FeeNode) : FeeParams :=
  match s.MAX_FEE_GWEI with
  | some max_fee => .eip1559 (gwei_to_wei max_fee) (gwei_to_wei (tier1_priority_gwei n))
  | none =>
    match n.base_fee with
    | some base_fee =>
      .eip1559 ((2 * base_fee + tier2_priority_fee n : ℤ) : ℚ) ((tier2_priority_fee n : ℤ) : ℚ)
    | none =>
      match n.gas_price with
      | some gp => .legacy gp
      | none => .emptyDict

/-- Source `chain_writer.py::declare_results::_fee_mode`: audit label for the
fee tier in use. -/
def fee_mode (s : WriterSettings) (fp : FeeParams) : String :=
  match fp with
  | .eip1559 _ _ => if s.MAX_FEE_GWEI.isSome then "eip1559-env" else "eip1559-auto"
  | .legacy _ => "legacy-fallback"
  | .emptyDict => "unknown"

/-- Claim C6: fee selection follows the three-tier priority: a configured
`MAX_FEE_GWEI` cap yields EIP-1559 params whose `maxFeePerGas` is that cap
(with a derived or small-constant priority tip); otherwise an available base
fee yields `maxFeePerGas = 2 * baseFee + priorityFee` together with that
priority fee; otherwise the node legacy gas price is returned. -/
theorem c6_fee_tier_selection (s : WriterSettings) (n : FeeNode) :
    (∀ cap, s.MAX_FEE_GWEI = some cap →
      fee_params s n = .eip1559 (gwei_to_wei cap) (gwei_to_wei (tier1_priority_gwei n))) ∧
    (s.MAX_FEE_GWEI = none → ∀ bf, n.base_fee = some bf →
      fee_params s n = .eip1559 ((2 * bf + tier2_priority_fee n : ℤ) : ℚ)
        ((tier2_priority_fee n : ℤ) : ℚ)) ∧
    (s.MAX_FEE_GWEI = none → n.base_fee = none → ∀ gp, n.gas_price = some gp →
      fee_params s n = .legacy gp) := by
  refine ⟨?_, ?_, ?_⟩
  · intro cap hcap
    simp [fee_params, hcap]
  · intro hcap bf hbf
    simp [fee_params, hcap, hbf]
  · intro hcap hbf gp hgp
    simp [fee_params, hcap, hbf, hgp]

theorem c6_witness :
    fee_params ⟨true, none, none, none⟩ ⟨none, none, none, some 7⟩ = FeeParams.legacy 7 :=
  (c6_fee_tier_selection ⟨true, none, none, none⟩ ⟨none, none, none, some 7⟩).2.2 rfl rfl 7 rfl

/-! Batched declaration, from `chain_writer.py::declare_results`. -/

/-- One entry of the `items` argument of `declare_results`:
`{ user, stake_minor_units, percent_ppm }`.  Addresses are opaque strings;
`Web3.to_checksum_address` is treated as the identity on the already-valid
addresses the pipeline passes around. -/
structure DeclareItem where
  user : String
  stake_minor_units : ℤ
  percent_ppm : ℤ
  deriving DecidableEq

/-- One chunk of the payload: `{"participants": ..., "refundPercentages": ...}`. -/
structure Chunk where
  participants : List String
  refundPercentages : List ℤ
  deriving DecidableEq

/-- The `payload` dictionary of `declare_results`. -/
structure Payload where
  challenge_id : ℤ
  chunks : List Chunk
  deriving DecidableEq

/-- Normalized transaction receipt recorded per chunk (the
`effectiveGasPrice` entry, `None` when unavailable, is omitted as it never
feeds back into control flow). -/
structure Receipt where
  transactionHash : String
  status : ℤ
  gasUsed : ℤ
  blockNumber : ℤ
  deriving DecidableEq

/-- Environment of one `declare_results` call.  `send_chunk i` is the
combined outcome of signing, broadcasting and waiting for the receipt of the
`i`-th chunk transaction (`sign_transaction`, `send_raw_transaction`,
`wait_for_transaction_receipt`): `Except.error` models any exception raised
there, `Except.ok` yields the tx hash and the normalized receipt.  Gas
estimation and the nonce bookkeeping only affect the transaction contents,
which this outcome function absorbs. -/
structure ChainEnv where
  node : FeeNode
  send_chunk : ℕ → Except String (String × Receipt)

/-- Chunking loop of `declare_results`:
`for i in range(0, len(addrs), chunk_size)` appending
`(addrs[i:i+chunk_size], bps[i:i+chunk_size])`.  Stated as fuelled
structural recursion on the remaining lists; with `fuel ≥ addrs.length` and
`chunk_size ≥ 1` the fuel never runs out, so this computes exactly the
slices of the Python loop (Python raises on a zero step, which no caller
uses). -/
def chunk_pairs_go (chunk_size : ℕ) : ℕ → List String → List ℤ → List Chunk
  | _, [], _ => []
  | 0, _ :: _, _ => []
  | fuel + 1, a :: addrs, bps =>
    ⟨(a :: addrs).take chunk_size, bps.take chunk_size⟩ ::
      chunk_pairs_go chunk_size fuel ((a :: addrs).drop chunk_size) (bps.drop chunk_size)

def chunk_pairs (chunk_size : ℕ) (addrs : List String) (bps : List ℤ) : List Chunk :=
  chunk_pairs_go chunk_size addrs.length addrs bps

/-- Sequential send loop of `declare_results` over the chunks, starting at
chunk index `i`: on the first failing chunk the exception propagates, and the
locally accumulated `tx_hashes`/`receipts` of the already-broadcast chunks
are lost with it (the source has no `try` around the loop). -/
def run_chunks (env : ChainEnv) : ℕ → List Chunk → Except String (List String × List Receipt)
  | _, [] => Except.ok ([], [])
  | i, _ :: rest =>
    match env.send_chunk i with
    | Except.error e => Except.error e
    | Except.ok (h, r) =>
      match run_chunks env (i + 1) rest with
      | Except.error e => Except.error e
      | Except.ok (hs, rs) => Except.ok (h :: hs, r :: rs)

/-- Result dictionary of `declare_results`: the dry-run shape
(`dry_run=True`) or the send shape (`dry_run=False`). -/
inductive DeclareOutcome where
  | dryRun (payload : Payload) (fee_params_preview : FeeParams)
      (fee_params_preview_mode : String)
  | sent (payload : Payload) (tx_hashes : List String) (receipts : List Receipt)
      (used_fee_params : List FeeParams) (fee_params_preview_mode : String)
  deriving DecidableEq

/-- Source `chain_writer.py::declare_results`.  Builds the address and
basis-point arrays from `items`, chunks them, and either returns the dry-run
preview or sends chunk transactions sequentially.  Python exceptions that
escape the function are `Except.error`. -/
def declare_results (s : WriterSettings) (env : ChainEnv) (challenge_id : ℤ)
    (items : List DeclareItem) (chunk_size : ℕ) (send : Bool) :
    Except String DeclareOutcome :=
  if !s.web3_configured then Except.error "Web3 not configured for chain writer"
  else
    let addrs := items.map (fun it => it.user)
    let bps := items.map (fun it => ppm_to_bps it.percent_ppm)
    let chunks := chunk_pairs chunk_size addrs bps
    let payload : Payload := ⟨challenge_id, chunks⟩
    let fee_preview := fee_params s env.node
    let preview_mode := fee_mode s fee_preview
    if !send then
      Except.ok (DeclareOutcome.dryRun payload fee_preview preview_mode)
    else if s.PRIVATE_KEY.isNone then
      Except.error "PRIVATE_KEY not configured for sending transactions"
    else
      match run_chunks env 0 chunks with
      | Except.error e => Except.error e
      | Except.ok (hs, rs) =>
        Except.ok (DeclareOutcome.sent payload hs rs
          (chunks.map (fun _ => fee_params s env.node)) preview_mode)

theorem chunk_pairs_go_join_participants (c : ℕ) (hc : 1 ≤ c) :
    ∀ (fuel : ℕ) (addrs : List String) (bps : List ℤ), addrs.length ≤ fuel →
      ((chunk_pairs_go c fuel addrs bps).map Chunk.participants).flatten = addrs := by
  intro fuel
  induction fuel with
  | zero =>
    intro addrs bps h
    have haddr : addrs = [] := List.length_eq_zero.mp (Nat.le_zero.mp h)
    subst haddr
    simp [chunk_pairs_go]
  | succ n ih =>
    intro addrs bps h
    match addrs with
    | [] => simp [chunk_pairs_go]
    | a :: as =>
      have hlen : ((a :: as).drop c).length ≤ n := by
        simp only [List.length_drop, List.length_cons]
        simp only [List.length_cons] at h
        omega
      simp only [chunk_pairs_go, List.map_cons, List.flatten_cons, ih _ _ hlen]
      exact List.take_append_drop c (a :: as)

theorem chunk_pairs_go_join_refunds (c : ℕ) (hc : 1 ≤ c) :
    ∀ (fuel : ℕ) (addrs : List String) (bps : List ℤ),
      addrs.length ≤ fuel → bps.length = addrs.length →
      ((chunk_pairs_go c fuel addrs bps).map Chunk.refundPercentages).flatten = bps := by
  intro fuel
  induction fuel with
  | zero =>
    intro addrs bps h hb
    have haddr : addrs = [] := List.length_eq_zero.mp (Nat.le_zero.mp h)
    subst haddr
    have hbps : bps = [] := List.length_eq_zero.mp hb
    subst hbps
    simp [chunk_pairs_go]
  | succ n ih =>
    intro addrs bps h hb
    match addrs with
    | [] =>
      have hbps : bps = [] := List.length_eq_zero.mp hb
      subst hbps
      simp [chunk_pairs_go]
    | a :: as =>
      have hlen : ((a :: as).drop c).length ≤ n := by
        simp only [List.length_drop, List.length_cons]
        simp only [List.length_cons] at h
        omega
      have hlen2 : (bps.drop c).length = ((a :: as).drop c).length := by
        simp only [List.length_drop, hb]
      simp only [chunk_pairs_go, List.map_cons, List.flatten_cons, ih _ _ hlen hlen2]
      exact List.take_append_drop c bps

theorem chunk_pairs_go_length (c : ℕ) (hc : 1 ≤ c) :
    ∀ (fuel : ℕ) (addrs : List String) (bps : List ℤ), addrs.length ≤ fuel →
      (chunk_pairs_go c fuel addrs bps).length = (addrs.length + c - 1) / c := by
  intro fuel
  induction fuel with
  | zero =>
    intro addrs bps h
    have haddr : addrs = [] := List.length_eq_zero.mp (Nat.le_zero.mp h)
    subst haddr
    simp only [chunk_pairs_go, List.length_nil]
    symm
    apply Nat.div_eq_of_lt
    omega
  | succ n ih =>
    intro addrs bps h
    match addrs with
    | [] =>
      simp only [chunk_pairs_go, List.length_nil]
      symm
      apply Nat.div_eq_of_lt
      omega
    | a :: as =>
      have hlen : ((a :: as).drop c).length ≤ n := by
        simp only [List.length_drop, List.length_cons]
        simp only [List.length_cons] at h
        omega
      simp only [chunk_pairs_go, List.length_cons, ih _ _ hlen, List.length_drop]
      rcases le_or_lt c (as.length + 1) with hcm | hcm
      · have h1 : as.length + 1 - c + c - 1 = as.length := by omega
        have h2 : as.length + 1 + c - 1 = as.length + c := by omega
        rw [h1, h2, Nat.add_div_right _ (by omega)]
      · have h1 : as.length + 1 - c + c - 1 = c - 1 := by omega
        have h2 : as.length + 1 + c - 1 = as.length + c := by omega
        rw [h1, h2, Nat.add_div_right _ (by omega),
          Nat.div_eq_of_lt (show c - 1 < c by omega),
          Nat.div_eq_of_lt (show as.length < c by omega)]

theorem chunk_pairs_go_sizes (c : ℕ) :
    ∀ (fuel : ℕ) (addrs : List String) (bps : List ℤ),
      ∀ ch ∈ chunk_pairs_go c fuel addrs bps,
        ch.participants.length ≤ c ∧ ch.refundPercentages.length ≤ c := by
  intro fuel
  induction fuel with
  | zero =>
    intro addrs bps ch hch
    cases addrs <;> simp [chunk_pairs_go] at hch
  | succ n ih =>
    intro addrs bps ch hch
    match addrs with
    | [] => simp [chunk_pairs_go] at hch
    | a :: as =>
      simp only [chunk_pairs_go, List.mem_cons] at hch
      rcases hch with rfl | hch
      · exact ⟨List.length_take_le _ _, List.length_take_le _ _⟩
      · exact ih _ _ ch hch

/-- Claim C5: for N items and chunk size C ≥ 1, the chunking performed by
`declare_results` produces exactly `⌈N / C⌉` chunks, each of size at most C,
whose sizes sum to N and whose in-order concatenation equals the input
address and basis-point arrays. -/
theorem c5_chunking (items : List DeclareItem) (c : ℕ) (hc : 1 ≤ c) :
    (chunk_pairs c (items.map (fun it => it.user))
        (items.map (fun it => ppm_to_bps it.percent_ppm))).length
      = (items.length + c - 1) / c ∧
    (chunk_pairs c (items.map (fun it => it.user))
        (items.map (fun it => ppm_to_bps it.percent_ppm))).all
      (fun ch => decide (ch.participants.length ≤ c) &&
        decide (ch.refundPercentages.length ≤ c)) = true ∧
    ((chunk_pairs c (items.map (fun it => it.user))
        (items.map (fun it => ppm_to_bps it.percent_ppm))).map
      (fun ch => ch.participants.length)).sum = items.length ∧
    ((chunk_pairs c (items.map (fun it => it.user))
        (items.map (fun it => ppm_to_bps it.percent_ppm))).map
      Chunk.participants).flatten = items.map (fun it => it.user) ∧
    ((chunk_pairs c (items.map (fun it => it.user))
        (items.map (fun it => ppm_to_bps it.percent_ppm))).map
      Chunk.refundPercentages).flatten
      = items.map (fun it => ppm_to_bps it.percent_ppm) := by
  set addrs := items.map (fun it => it.user) with haddrs
  set bps := items.map (fun it => ppm_to_bps it.percent_ppm) with hbps
  have hblen : bps.length = addrs.length := by
    rw [haddrs, hbps]
    simp
  have hjoinp : ((chunk_pairs c addrs bps).map Chunk.participants).flatten = addrs :=
    chunk_pairs_go_join_participants c hc addrs.length addrs bps le_rfl
  have hjoinr : ((chunk_pairs c addrs bps).map Chunk.refundPercentages).flatten = bps :=
    chunk_pairs_go_join_refunds c hc addrs.length addrs bps le_rfl hblen
  refine ⟨?_, ?_, ?_, ?_, ?_⟩
  · have hl : (chunk_pairs c addrs bps).length = (addrs.length + c - 1) / c :=
      chunk_pairs_go_length c hc addrs.length addrs bps le_rfl
    rw [hl, haddrs]
    simp
  · rw [List.all_eq_true]
    intro ch hch
    have := chunk_pairs_go_sizes c _ _ _ ch hch
    simp [this.1, this.2]
  · have hlen := congrArg List.length hjoinp
    rw [List.length_flatten, List.map_map] at hlen
    rw [show addrs.length = items.length by rw [haddrs]; simp] at hlen
    simpa [Function.comp] using hlen
  · exact hjoinp
  · exact hjoinr

/-- Demo items used by the concrete witnesses and counterexamples below. -/
def threeItems : List DeclareItem :=
  [⟨"0xAAA", 100, 1000000⟩, ⟨"0xBBB", 200, 500000⟩, ⟨"0xCCC", 300, 0⟩]

theorem c5_witness :
    (chunk_pairs 2 (threeItems.map (fun it => it.user))
        (threeItems.map (fun it => ppm_to_bps it.percent_ppm))).length
      = (threeItems.length + 2 - 1) / 2 ∧
    (chunk_pairs 2 (threeItems.map (fun it => it.user))
        (threeItems.map (fun it => ppm_to_bps it.percent_ppm))).all
      (fun ch => decide (ch.participants.length ≤ 2) &&
        decide (ch.refundPercentages.length ≤ 2)) = true ∧
    ((chunk_pairs 2 (threeItems.map (fun it => it.user))
        (threeItems.map (fun it => ppm_to_bps it.percent_ppm))).map
      (fun ch => ch.participants.length)).sum = threeItems.length ∧
    ((chunk_pairs 2 (threeItems.map (fun it => it.user))
        (threeItems.map (fun it => ppm_to_bps it.percent_ppm))).map
      Chunk.participants).flatten = threeItems.map (fun it => it.user) ∧
    ((chunk_pairs 2 (threeItems.map (fun it => it.user))
        (threeItems.map (fun it => ppm_to_bps it.percent_ppm))).map
      Chunk.refundPercentages).flatten
      = threeItems.map (fun it => ppm_to_bps it.percent_ppm) :=
  c5_chunking threeItems 2 (by norm_num)

/-- Claim C9: with web3 configured, every send=false call returns the chunked
payload together with the fee-parameter preview, for every node state
(including one where every fee read fails) and without any signing key:
the dry-run path is total and never contacts the signer. -/
theorem c9_dry_run_preview (s : WriterSettings) (env : ChainEnv) (cid : ℤ)
    (items : List DeclareItem) (c : ℕ) (hconf : s.web3_configured = true) :
    declare_results s env cid items c false =
      Except.ok (DeclareOutcome.dryRun
        ⟨cid, chunk_pairs c (items.map (fun it => it.user))
          (items.map (fun it => ppm_to_bps it.percent_ppm))⟩
        (fee_params s env.node) (fee_mode s (fee_params s env.node))) := by
  simp [declare_results, hconf]

/-- Settings with web3 configured but no signing key and no fee overrides. -/
def previewSettings : WriterSettings := ⟨true, none, none, none⟩

/-- Degraded environment: every node fee read fails and every send fails. -/
def degradedEnv : ChainEnv := ⟨⟨none, none, none, none⟩, fun _ => Except.error "node down"⟩

theorem c9_witness :
    declare_results previewSettings degradedEnv 7 threeItems 2 false =
      Except.ok (DeclareOutcome.dryRun
        ⟨7, chunk_pairs 2 (threeItems.map (fun it => it.user))
          (threeItems.map (fun it => ppm_to_bps it.percent_ppm))⟩
        (fee_params previewSettings degradedEnv.node)
        (fee_mode previewSettings (fee_params previewSettings degradedEnv.node))) :=
  c9_dry_run_preview previewSettings degradedEnv 7 threeItems 2 rfl

/-- Settings with web3 configured and a signing key present. -/
def sendSettings : WriterSettings := ⟨true, none, none, some "0xkey"⟩

/-- Environment where every chunk send succeeds. -/
def happyEnv : ChainEnv :=
  ⟨⟨none, none, none, some 5⟩, fun _ => Except.ok ("0xh", ⟨"0xh", 1, 21000, 1⟩)⟩

/-- Counterexample to claim C3: a send=true call with zero items is not
rejected as a validation error; it succeeds with zero chunks and zero
transactions. -/
theorem c3_counterexample :
    declare_results sendSettings happyEnv 7 [] 200 true =
      Except.ok (DeclareOutcome.sent ⟨7, []⟩ [] [] [] "legacy-fallback") := rfl

/-- Claim C3 as amended: `declare_results` performs no emptiness validation;
whenever web3 is configured and a signing key is present, a send=true call
with zero items succeeds, returning an empty payload, no tx hashes and no
receipts. -/
theorem c3_amended_no_empty_validation (s : WriterSettings) (env : ChainEnv) (cid : ℤ)
    (c : ℕ) (hconf : s.web3_configured = true) (hkey : s.PRIVATE_KEY.isSome = true) :
    declare_results s env cid [] c true =
      Except.ok (DeclareOutcome.sent ⟨cid, []⟩ [] [] []
        (fee_mode s (fee_params s env.node))) := by
  obtain ⟨key, hkeq⟩ := Option.isSome_iff_exists.mp hkey
  simp [declare_results, hconf, hkeq, chunk_pairs, chunk_pairs_go, run_chunks]

theorem c3_witness :
    declare_results sendSettings happyEnv 7 [] 200 true =
      Except.ok (DeclareOutcome.sent ⟨7, []⟩ [] [] []
        (fee_mode sendSettings (fee_params sendSettings happyEnv.node))) :=
  c3_amended_no_empty_validation sendSettings happyEnv 7 200 rfl rfl

/-- Environment where chunk 0 broadcasts fine and every later chunk fails
while awaiting its receipt. -/
def flakyEnv : ChainEnv :=
  ⟨⟨none, none, none, some 5⟩,
   fun i => if i == 0 then Except.ok ("0xh0", ⟨"0xh0", 1, 21000, 1⟩)
     else Except.error "receipt timeout"⟩

/-- Counterexample to claim C1: three items in chunks of two give two chunks;
chunk 0 is broadcast successfully, chunk 1 fails awaiting its receipt, and
`declare_results` returns only the error — the receipt and tx hash of the
already-broadcast chunk 0 are not returned to the caller. -/
theorem c1_counterexample :
    declare_results sendSettings flakyEnv 7 threeItems 2 true =
      Except.error "receipt timeout" := rfl

theorem run_chunks_first_error (env : ChainEnv) (e : String) :
    ∀ (chunks : List Chunk) (i k : ℕ), k < chunks.length →
      (∀ j, j < k → ∃ hr, env.send_chunk (i + j) = Except.ok hr) →
      env.send_chunk (i + k) = Except.error e →
      run_chunks env i chunks = Except.error e := by
  intro chunks
  induction chunks with
  | nil =>
    intro i k hk
    simp at hk
  | cons ch rest ih =>
    intro i k hk hok hfail
    cases k with
    | zero =>
      have h0 : env.send_chunk i = Except.error e := by simpa using hfail
      simp [run_chunks, h0]
    | succ k =>
      obtain ⟨hr, hok0⟩ := hok 0 (Nat.succ_pos k)
      have h0 : env.send_chunk i = Except.ok hr := by simpa using hok0
      have hrec : run_chunks env (i + 1) rest = Except.error e := by
        apply ih (i + 1) k
        · simpa using hk
        · intro j hj
          obtain ⟨hr2, h2⟩ := hok (j + 1) (by omega)
          exact ⟨hr2, by rwa [show i + 1 + j = i + (j + 1) by omega]⟩
        · rwa [show i + 1 + k = i + (k + 1) by omega]
      rcases hr with ⟨h, r⟩
      simp [run_chunks, h0, hrec]

/-- Claim C1 as amended: when a later chunk fails to broadcast or to produce
a receipt after all earlier chunks were broadcast, `declare_results` raises
that failure to the caller; the receipts and tx hashes of the
already-broadcast chunks are discarded with the local state, not returned. -/
theorem c1_chunk_failure_discards_receipts (s : WriterSettings) (env : ChainEnv) (cid : ℤ)
    (items : List DeclareItem) (c k : ℕ) (e : String)
    (hconf : s.web3_configured = true) (hkey : s.PRIVATE_KEY.isSome = true)
    (hk : k < (chunk_pairs c (items.map (fun it => it.user))
      (items.map (fun it => ppm_to_bps it.percent_ppm))).length)
    (hok : ∀ j, j < k → ∃ hr, env.send_chunk j = Except.ok hr)
    (hfail : env.send_chunk k = Except.error e) :
    declare_results s env cid items c true = Except.error e := by
  obtain ⟨key, hkeq⟩ := Option.isSome_iff_exists.mp hkey
  have hrun := run_chunks_first_error env e
    (chunk_pairs c (items.map (fun it => it.user))
      (items.map (fun it => ppm_to_bps it.percent_ppm))) 0 k hk
    (by intro j hj; simpa using hok j hj) (by simpa using hfail)
  simp [declare_results, hconf, hkeq, hrun]

theorem c1_witness :
    declare_results sendSettings flakyEnv 7 threeItems 2 true =
      Except.error "receipt timeout" :=
  c1_chunk_failure_discards_receipts sendSettings flakyEnv 7 threeItems 2 1 "receipt timeout"
    rfl rfl (by decide)
    (fun j hj => ⟨("0xh0", ⟨"0xh0", 1, 21000, 1⟩), by
      have hj0 : j = 0 := by omega
      subst hj0
      rfl⟩)
    rfl

/-! Indexing and caching, from `app/services/indexer.py`.  The Supabase
tables are modelled as lists of row structures; all rows belong to the
configured contract unless their `contract_address` field says otherwise. -/

/-- One decoded challenge summary from `ChainReader.get_all_challenges`
(narrow records decode with `name = ""`). -/
structure Challenge where
  challenge_id : ℤ
  recipient : String
  start_time : ℤ
  end_time : ℤ
  is_private : Bool
  name : String
  api_type : String
  goal_type : String
  goal_amount : ℤ
  description : String
  total_donation_amount : ℤ
  results_finalized : Bool
  participant_count : ℤ
  deriving DecidableEq

/-- One row of the `chain_challenges` cache table, as upserted by
`fetch_and_cache_ended_challenges`. -/
structure ChainChallengeRow where
  contract_address : String
  challenge_id : ℤ
  recipient : String
  start_time : ℤ
  end_time : ℤ
  is_private : Bool
  name : String
  api_type : String
  goal_type : String
  goal_amount : ℤ
  description : String
  total_donation_amount : ℤ
  results_finalized : Bool
  participant_count : ℤ
  deriving DecidableEq

/-- Result of `fetch_and_cache_ended_challenges`, extended with the row list
passed to `dal.upsert_chain_challenges` (the observable store effect). -/
structure FetchOutcome where
  fetched : ℕ
  indexed : ℕ
  only_ready_to_end : Bool
  exclude_finished : Bool
  skipped_archived : ℕ
  upserted_rows : List ChainChallengeRow
  deriving DecidableEq

/-- Source `indexer.py::fetch_and_cache_ended_challenges`.  `chain_items` is
what `reader.get_all_challenges` returned, `ts` the current unix time,
`archived` the challenge ids present in `finished_challenges` for the
configured contract, and `archive_lookup_ok` whether the archive query
succeeded — on any exception the source swallows the error and proceeds with
an empty archived set. -/
def fetch_and_cache_ended_challenges (contract : String) (ts : ℤ)
    (chain_items : List Challenge) (archived : List ℤ) (archive_lookup_ok : Bool)
    (only_ready_to_end exclude_finished : Bool) : FetchOutcome :=
  let filtered := chain_items.filter
    (fun ch => !only_ready_to_end || (decide (ch.end_time ≤ ts) && !ch.results_finalized))
  let ids := filtered.map (fun ch => ch.challenge_id)
  let archived_ids : List ℤ :=
    if exclude_finished && !filtered.isEmpty && archive_lookup_ok then
      archived.filter (fun i => ids.contains i)
    else []
  let rows := (filtered.filter
      (fun ch => !(exclude_finished && archived_ids.contains ch.challenge_id))).map
    (fun ch => (⟨contract, ch.challenge_id, ch.recipient, ch.start_time, ch.end_time,
      ch.is_private, ch.name, ch.api_type, ch.goal_type, ch.goal_amount, ch.description,
      ch.total_donation_amount, ch.results_finalized, ch.participant_count⟩ :
      ChainChallengeRow))
  ⟨chain_items.length, rows.length, only_ready_to_end, exclude_finished,
    if exclude_finished then archived_ids.length else 0, rows⟩

/-- Counterexample to claim C2: challenge id 1 is archived, but the archive
lookup fails; `fetch_and_cache_ended_challenges` with exclude_finished=true
still upserts a `chain_challenges` row for id 1. -/
theorem c2_counterexample :
    ((fetch_and_cache_ended_challenges "0xC" 100
        [⟨1, "0xR", 0, 10, false, "n", "github", "g", 1, "d", 0, false, 2⟩]
        [1] false true true).upserted_rows.map
      (fun r => r.challenge_id)) = [1] := rfl

/-- Claim C2 as amended: when the archive-store lookup succeeds, an
exclude_finished=true run never upserts a cache row for an archived
challenge id; when the lookup fails, the archived set is treated as empty
and archived ids may be re-upserted. -/
theorem c2_amended_archived_suppressed_on_lookup_success (contract : String) (ts : ℤ)
    (chain_items : List Challenge) (archived : List ℤ) (only_ready_to_end : Bool) :
    (fetch_and_cache_ended_challenges contract ts chain_items archived true
        only_ready_to_end true).upserted_rows.all
      (fun r => !archived.contains r.challenge_id) = true := by
  rw [List.all_eq_true]
  intro r hr
  simp only [fetch_and_cache_ended_challenges, List.mem_map, List.mem_filter] at hr
  obtain ⟨ch, ⟨hmem, hkeep⟩, hrfl⟩ := hr
  subst hrfl
  simp only [Bool.not_eq_true']
  by_contra hcon
  rw [Bool.not_eq_false] at hcon
  have hchf : ch ∈ chain_items.filter
      (fun ch => !only_ready_to_end ||
        (decide (ch.end_time ≤ ts) && !ch.results_finalized)) :=
    List.mem_filter.mpr hmem
  have hne : (chain_items.filter
      (fun ch => !only_ready_to_end ||
        (decide (ch.end_time ≤ ts) && !ch.results_finalized))).isEmpty = false := by
    rw [List.isEmpty_eq_false_iff_exists_mem]
    exact ⟨ch, hchf⟩
  rw [hne] at hkeep
  simp only [Bool.and_true, Bool.and_self, Bool.true_and, Bool.not_eq_true',
    Bool.and_eq_true, decide_eq_true_eq, if_true] at hkeep
  have hid : ((chain_items.filter
      (fun ch => !only_ready_to_end ||
        (decide (ch.end_time ≤ ts) && !ch.results_finalized))).map
        (fun ch => ch.challenge_id)).contains ch.challenge_id = true := by
    rw [List.contains_eq_any_beq, List.any_eq_true]
    exact ⟨ch.challenge_id, List.mem_map_of_mem _ hchf, by simp⟩
  have hmemarch : ch.challenge_id ∈ archived := by
    rw [List.contains_eq_any_beq, List.any_eq_true] at hcon
    obtain ⟨x, hx, hbeq⟩ := hcon
    rw [beq_iff_eq] at hbeq
    rwa [hbeq]
  have harch : (archived.filter (fun i =>
      ((chain_items.filter
        (fun ch => !only_ready_to_end ||
          (decide (ch.end_time ≤ ts) && !ch.results_finalized))).map
        (fun ch => ch.challenge_id)).contains i)).contains ch.challenge_id = true := by
    rw [List.contains_eq_any_beq, List.any_eq_true]
    exact ⟨ch.challenge_id, List.mem_filter.mpr ⟨hmemarch, hid⟩, by simp⟩
  rw [harch] at hkeep
  simp at hkeep

/-- One row of the `chain_participants` cache table. -/
structure ChainParticipantRow where
  contract_address : String
  challenge_id : ℤ
  participant_address : String
  amount : ℤ
  refund_percentage : ℤ
  result_declared : Bool
  deriving DecidableEq

/-- One decoded participant record from `ChainReader.get_challenge_detail`. -/
structure ParticipantDetail where
  participant_address : String
  amount : ℤ
  refund_percentage : ℤ
  result_declared : Bool
  deriving DecidableEq

/-- Decoded challenge detail from `ChainReader.get_challenge_detail`. -/
structure ChallengeDetail where
  challenge_id : ℤ
  participants : List ParticipantDetail
  deriving DecidableEq

/-- The Supabase store as `cache_participants`/`prepare_run` see it:
`finished_ids` are the `finished_challenges.challenge_id` values for the
configured contract; the other two lists mirror the cache tables.
`SupabaseDAL.from_env` is assumed to succeed — its absence raises before any
of the modelled logic runs. -/
structure Store where
  finished_ids : List ℤ
  chain_challenges : List ChainChallengeRow
  chain_participants : List ChainParticipantRow
  deriving DecidableEq

/-- Idempotent upsert of one participant row, keyed by
`(contract_address, challenge_id, participant_address)`. -/
def upsert_participant (rows : List ChainParticipantRow) (r : ChainParticipantRow) :
    List ChainParticipantRow :=
  if rows.any (fun x => x.contract_address == r.contract_address &&
      x.challenge_id == r.challenge_id && x.participant_address == r.participant_address) then
    rows.map (fun x => if x.contract_address == r.contract_address &&
        x.challenge_id == r.challenge_id && x.participant_address == r.participant_address
      then r else x)
  else rows ++ [r]

def upsert_chain_participants (table : List ChainParticipantRow)
    (rows : List ChainParticipantRow) : List ChainParticipantRow :=
  rows.foldl upsert_participant table

/-- Readiness query of `cache_participants`: cached challenge rows matching
the contract and id with `end_time <= ts` and `results_finalized = false`
(the source adds `limit 1`, irrelevant to emptiness). -/
def ready_challenge_rows (contract : String) (ts cid : ℤ) (store : Store) :
    List ChainChallengeRow :=
  store.chain_challenges.filter (fun r => r.contract_address == contract &&
    r.challenge_id == cid && decide (r.end_time ≤ ts) && !r.results_finalized)

/-- Result dictionary of `cache_participants`, extended with
`contacted_gateway`: whether `ChainReader` was initialized and queried. -/
structure CacheParticipantsResult where
  challenge_id : ℤ
  participants_indexed : ℕ
  skipped : Bool
  reason : Option String
  contacted_gateway : Bool
  deriving DecidableEq

/-- Source `indexer.py::cache_participants`.  `web3_ok` models the
`_ensure_web3_configured`/`ChainReader.from_settings` checks, `detail` what
`reader.get_challenge_detail(challenge_id)` would return.  Returns the
result together with the updated store. -/
def cache_participants (contract : String) (ts : ℤ) (web3_ok : Bool)
    (detail : ChallengeDetail) (store : Store) (challenge_id : ℤ) :
    Except String (CacheParticipantsResult × Store) :=
  if challenge_id < 0 then Except.error "challenge_id must be >= 0"
  else if store.finished_ids.contains challenge_id then
    Except.ok (⟨challenge_id, 0, true, some "already_archived", false⟩, store)
  else if (ready_challenge_rows contract ts challenge_id store).isEmpty then
    Except.ok (⟨challenge_id, 0, true, some "not_ready", false⟩, store)
  else if !web3_ok then Except.error "Web3 not configured"
  else
    let rows := detail.participants.map (fun p =>
      (⟨contract, detail.challenge_id, p.participant_address, p.amount,
        p.refund_percentage, p.result_declared⟩ : ChainParticipantRow))
    Except.ok (⟨challenge_id, rows.length, false, none, true⟩,
      ⟨store.finished_ids, store.chain_challenges,
        upsert_chain_participants store.chain_participants rows⟩)

/-- Claim C4: `cache_participants` skips with reason "already_archived" when
a `finished_challenges` row exists, skips with reason "not_ready" when no
cached challenge row is ended-and-unfinalized, in both cases without
contacting the chain gateway; only when both guards pass does it query the
gateway and upsert the participant detail. -/
theorem c4_readiness_guards (contract : String) (ts : ℤ) (web3_ok : Bool)
    (detail : ChallengeDetail) (store : Store) (cid : ℤ) (hcid : 0 ≤ cid) :
    (store.finished_ids.contains cid = true →
      cache_participants contract ts web3_ok detail store cid =
        Except.ok (⟨cid, 0, true, some "already_archived", false⟩, store)) ∧
    (store.finished_ids.contains cid = false →
      (ready_challenge_rows contract ts cid store).isEmpty = true →
      cache_participants contract ts web3_ok detail store cid =
        Except.ok (⟨cid, 0, true, some "not_ready", false⟩, store)) ∧
    (store.finished_ids.contains cid = false →
      (ready_challenge_rows contract ts cid store).isEmpty = false →
      web3_ok = true →
      cache_participants contract ts web3_ok detail store cid =
        Except.ok (⟨cid, detail.participants.length, false, none, true⟩,
          ⟨store.finished_ids, store.chain_challenges,
            upsert_chain_participants store.chain_participants
              (detail.participants.map (fun p =>
                (⟨contract, detail.challenge_id, p.participant_address, p.amount,
                  p.refund_percentage, p.result_declared⟩ : ChainParticipantRow)))⟩)) := by
  refine ⟨?_, ?_, ?_⟩
  · intro h
    have hm : cid ∈ store.finished_ids := by simpa using h
    simp [cache_participants, show ¬ cid < 0 by omega, hm]
  · intro h hrdy
    have hm : cid ∉ store.finished_ids := by simpa using h
    have hr : ready_challenge_rows contract ts cid store = [] := by
      simpa [List.isEmpty_iff] using hrdy
    simp [cache_participants, show ¬ cid < 0 by omega, hm, hr]
  · intro h hrdy hw3
    have hm : cid ∉ store.finished_ids := by simpa using h
    have hr : ¬ ready_challenge_rows contract ts cid store = [] := by
      simpa [List.isEmpty_iff] using hrdy
    simp [cache_participants, show ¬ cid < 0 by omega, hm, hr, hw3]

/-- Demo challenge detail used by concrete witnesses. -/
def demoDetail : ChallengeDetail := ⟨5, [⟨"0xP1", 100, 0, false⟩]⟩

/-- Store where challenge 5 already has a `finished_challenges` row. -/
def archivedStore : Store := ⟨[5], [], []⟩

/-- Store with no archive row and no ready cached challenge. -/
def notReadyStore : Store := ⟨[], [], []⟩

theorem c4_witness :
    cache_participants "0xC" 100 true demoDetail archivedStore 5 =
      Except.ok (⟨5, 0, true, some "already_archived", false⟩, archivedStore) ∧
    cache_participants "0xC" 100 true demoDetail notReadyStore 6 =
      Except.ok (⟨6, 0, true, some "not_ready", false⟩, notReadyStore) :=
  ⟨(c4_readiness_guards "0xC" 100 true demoDetail archivedStore 5 (by norm_num)).1 rfl,
   (c4_readiness_guards "0xC" 100 true demoDetail notReadyStore 6 (by norm_num)).2.1 rfl rfl⟩

/-! Percent resolution, from `indexer.py::prepare_run`. -/

/-- Python `str.lower` on the ASCII addresses the pipeline handles
(`addr_key = lambda a: str(a).lower()`), stated structurally so that
concrete instances evaluate. -/
def str_lower (s : String) : String := String.mk (s.data.map Char.toLower)

/-- One entry of the `items` list `prepare_run` returns. -/
structure PrepItem where
  user : String
  stake_minor_units : ℤ
  percent_ppm : ℤ
  progress_ratio : Option ℚ
  deriving DecidableEq

/-- The `rule` record `prepare_run` returns for archival provenance. -/
structure RunRule where
  type : String
  fallback_percent_ppm : ℤ
  deriving DecidableEq

/-- Result of `prepare_run`. -/
structure PrepareOutcome where
  challenge_id : ℤ
  items : List PrepItem
  rule : RunRule
  deriving DecidableEq

/-- Pending-participant query of `prepare_run`: cached rows for the
challenge with `result_declared = false`, limit 2000. -/
def pending_participant_rows (contract : String) (cid : ℤ) (store : Store) :
    List ChainParticipantRow :=
  (store.chain_participants.filter (fun r => r.contract_address == contract &&
    r.challenge_id == cid && !r.result_declared)).take 2000

/-- Source `indexer.py::prepare_run`.  `ratios` is the per-address ratio
dictionary `fetch_progress` returned for this challenge, keyed by lowercased
address; the `api_type` looked up from the cached challenge row only selects
the provider inside `fetch_progress`, so it is absorbed by `ratios` (a
`fetch_progress` exception would propagate unchanged).  When the first
pending query is empty the source calls `cache_participants` — which
enforces the readiness guard — and re-queries only if rows were indexed. -/
def prepare_run (contract : String) (ts : ℤ) (web3_ok : Bool)
    (detail : ChallengeDetail) (ratios : String → Option ℚ) (store : Store)
    (cid : ℤ) (default_percent_ppm : ℤ) : Except String PrepareOutcome :=
  if cid < 0 then Except.error "challenge_id must be >= 0"
  else if !(decide (0 ≤ default_percent_ppm) && decide (default_percent_ppm ≤ 1000000)) then
    Except.error "default_percent_ppm must be between 0 and 1_000_000"
  else
    let pending := pending_participant_rows contract cid store
    let fetched : Except String (List ChainParticipantRow) :=
      if pending.isEmpty then
        match cache_participants contract ts web3_ok detail store cid with
        | Except.error e => Except.error e
        | Except.ok (res, store2) =>
          if res.participants_indexed ≠ 0 then
            Except.ok (pending_participant_rows contract cid store2)
          else Except.ok pending
      else Except.ok pending
    match fetched with
    | Except.error e => Except.error e
    | Except.ok participants =>
      Except.ok ⟨cid,
        participants.map (fun row =>
          let ratio := ratios (str_lower row.participant_address)
          let ppm := if ratio.isSome then ratio_to_ppm ratio else default_percent_ppm
          ⟨row.participant_address, row.amount, ppm, ratio⟩),
        ⟨"progress", default_percent_ppm⟩⟩

theorem ratio_to_ppm_exact (x : ℚ) (n : ℤ) (h0 : 0 ≤ x) (h1 : x ≤ 1)
    (h : x * 1000000 = (n : ℚ)) : ratio_to_ppm (some x) = n := by
  show pyRound (max 0 (min 1 x) * 1000000) = n
  rw [min_eq_right h1, max_eq_right h0, h, pyRound_intCast]

theorem ppm_to_bps_exact (p b : ℤ) (h : (p : ℚ) / 100 = (b : ℚ)) : ppm_to_bps p = b := by
  unfold ppm_to_bps
  rw [h, pyRound_intCast]

/-- Cached state used by the C7 scenario: challenge 7 ended, three pending
participants. -/
def c7Store : Store :=
  ⟨[], [⟨"0xC", 7, "0xR", 0, 50, false, "n", "github", "g", 1, "d", 0, false, 3⟩],
   [⟨"0xC", 7, "0xAlice", 100, 0, false⟩, ⟨"0xC", 7, "0xBob", 200, 0, false⟩,
    ⟨"0xC", 7, "0xCarol", 300, 0, false⟩]⟩

/-- Oracle ratios of the C7 scenario, keyed by lowercased address:
1.0 for Alice, 0.5 for Bob, unresolved for Carol. -/
def c7Ratios (addr : String) : Option ℚ :=
  if addr == "0xalice" then some 1
  else if addr == "0xbob" then some (1 / 2)
  else none

/-- Claim C7: for a ready challenge with three pending participants whose
oracle ratios resolve to 1.0, 0.5 and none, with fallback 200000 ppm,
`prepare_run` yields `percent_ppm` `[1000000, 500000, 200000]` in
participant order, and converting those for declaration yields basis points
`[10000, 5000, 2000]`. -/
theorem c7_resolution_scenario :
    (prepare_run "0xC" 100 true ⟨7, []⟩ c7Ratios c7Store 7 200000).map
      (fun res => (res.items.map (fun it => it.percent_ppm),
        res.items.map (fun it => ppm_to_bps it.percent_ppm))) =
      Except.ok ([1000000, 500000, 200000], [10000, 5000, 2000]) := by
  have hpend : pending_participant_rows "0xC" 7 c7Store =
      [⟨"0xC", 7, "0xAlice", 100, 0, false⟩, ⟨"0xC", 7, "0xBob", 200, 0, false⟩,
       ⟨"0xC", 7, "0xCarol", 300, 0, false⟩] := rfl
  have hlow1 : str_lower "0xAlice" = "0xalice" := rfl
  have hlow2 : str_lower "0xBob" = "0xbob" := rfl
  have hlow3 : str_lower "0xCarol" = "0xcarol" := rfl
  have hr1 : ratio_to_ppm (some 1) = 1000000 :=
    ratio_to_ppm_exact 1 1000000 (by norm_num) (by norm_num) (by norm_num)
  have hr2 : ratio_to_ppm (some (1 / 2)) = 500000 :=
    ratio_to_ppm_exact (1 / 2) 500000 (by norm_num) (by norm_num) (by norm_num)
  have hb1 : ppm_to_bps 1000000 = 10000 := ppm_to_bps_exact 1000000 10000 (by norm_num)
  have hb2 : ppm_to_bps 500000 = 5000 := ppm_to_bps_exact 500000 5000 (by norm_num)
  have hb3 : ppm_to_bps 200000 = 2000 := ppm_to_bps_exact 200000 2000 (by norm_num)
  have hne1 : ¬("0xbob" : String) = "0xalice" := by decide
  have hne2 : ¬("0xcarol" : String) = "0xalice" := by decide
  have hne3 : ¬("0xcarol" : String) = "0xbob" := by decide
  simp only [prepare_run, hpend, c7Ratios]
  norm_num [Except.map, hlow1, hlow2, hlow3, hne1, hne2, hne3, hr1, hr2, hb1, hb2, hb3]

end Motify
